import Mathlib

/-!
Verification of the Mega-Sena analysis pipeline (megasenav0.7.py).

The Python source is shallowly embedded: each relevant Python function is
translated into a Lean definition over explicit data.  Python `dict`s are
modelled as insertion-ordered association lists, pandas dataframes as lists
of rows, and the `random` module as an explicit sampler state threaded
through `sugerir_jogos`.  Row order of pandas `groupby` output (which sorts
group keys) is abstracted to first-occurrence order; no claim below depends
on row order.
-/

/-! ### Python string primitives

Lean's library `String` operations (`toUpper`, `trim`, `≤`, ...) are defined
through position loops that the kernel cannot evaluate, so the Python string
primitives used by the program are embedded as structurally recursive
functions on `String.data`.  Python compares strings lexicographically by
code point; `str.upper`/`str.strip` act per character. -/

/-- Code-point lexicographic comparison of character lists, as Python
compares strings. -/
def lexLe : List Char → List Char → Bool
  | [], _ => true
  | _ :: _, [] => false
  | a :: as, b :: bs => if a = b then lexLe as bs else decide (a.toNat < b.toNat)

/-- Python `s1 <= s2` on strings. -/
def pyLe (s t : String) : Prop := lexLe s.data t.data = true

instance : DecidableRel pyLe := fun s t => inferInstanceAs (Decidable (lexLe s.data t.data = true))

/-- Python `s.upper()` (per-character upper-casing; ASCII suffices here). -/
def pyUpper (s : String) : String := ⟨s.data.map Char.toUpper⟩

/-- The characters Python `str.strip()` removes. -/
def isPySpace (c : Char) : Bool :=
  c = ' ' || c = '\t' || c = '\n' || c = '\r' || c = '\x0b' || c = '\x0c'

/-- Python `s.strip()`: drop whitespace from both ends. -/
def pyStrip (s : String) : String :=
  ⟨((s.data.dropWhile isPySpace).reverse.dropWhile isPySpace).reverse⟩

/-- A Python value appearing in a `dezenas` list: an int or a str. -/
inductive PyVal : Type
  | intV (n : Int)
  | strV (s : String)
deriving DecidableEq, Repr

/-- Python `str(d)` for the values we model. -/
def pyStr : PyVal → String
  | .intV n => toString n
  | .strV s => s

/-- Python `s.zfill(w)`: left-pad with `'0'` to width `w`, keeping a leading
sign in place. -/
def zfill (s : String) (w : Nat) : String :=
  if w ≤ s.length then s
  else
    let pad := List.replicate (w - s.length) '0'
    match s.data with
    | '-' :: rest => ⟨'-' :: (pad ++ rest)⟩
    | '+' :: rest => ⟨'+' :: (pad ++ rest)⟩
    | _ => ⟨pad ++ s.data⟩

/-- `TODAS_DEZENAS = [str(i).zfill(2) for i in range(1, 61)]` (line 13). -/
def TODAS_DEZENAS : List String :=
  (List.range' 1 60).map (fun i => zfill (toString i) 2)

/-- `normalize_game` (lines 241-246): `jogo_str = [str(d).zfill(2) for d in jogo]`
then `'-'.join(sorted(jogo_str))`.  Python `sorted` on strings is modelled by
insertion sort under the lexicographic order on `String`. -/
def normalize_game (jogo : List PyVal) : String :=
  let jogo_str := jogo.map (fun d => zfill (pyStr d) 2)
  "-".intercalate (jogo_str.insertionSort pyLe)

/-- One entry of a raw draw's `localGanhadores` list.  `get('quantidade', 1)`
is modelled by `Option.getD 1`. -/
structure Ganhador : Type where
  quantidade : Option Nat
  municipio : Option String
  uf : Option String
deriving DecidableEq, Repr

/-- One raw draw record (`sorteio`) from the API, restricted to the fields
the pipeline reads. -/
structure Sorteio : Type where
  concurso : Nat
  data : Option String
  dezenas : Option (List PyVal)
  localGanhadores : Option (List Ganhador)
deriving DecidableEq, Repr

/-! ### Frequency table (lines 81, 107-113) -/

/-- `contagem_dezenas = {d: 0 for d in TODAS_DEZENAS}` (line 81). -/
def initContagem : List (String × Nat) :=
  TODAS_DEZENAS.map (fun d => (d, 0))

/-- In-place increment of an existing key of a Python dict modelled as an
association list; a missing key leaves the list unchanged. -/
def bump (k : String) : List (String × Nat) → List (String × Nat)
  | [] => []
  | (k', v) :: t => if k' = k then (k', v + 1) :: t else (k', v) :: bump k t

/-- Lines 111-113: `dezena_formatada = str(dezena).zfill(2)`;
`if dezena_formatada in contagem_dezenas: contagem_dezenas[dezena_formatada] += 1`. -/
def processDezena (tbl : List (String × Nat)) (d : PyVal) : List (String × Nat) :=
  let dezena_formatada := zfill (pyStr d) 2
  if dezena_formatada ∈ tbl.map Prod.fst then bump dezena_formatada tbl else tbl

/-- Lines 108-113: the `dezenas` loop of one draw.  Python truthiness
`if dezenas_sorteadas and isinstance(dezenas_sorteadas, list)` keeps only a
present, non-empty list. -/
def processSorteioDezenas (tbl : List (String × Nat)) (s : Sorteio) : List (String × Nat) :=
  match s.dezenas with
  | some l => if l ≠ [] then l.foldl processDezena tbl else tbl
  | none => tbl

/-- The frequency-table part of `load_and_process_data` (lines 81-113). -/
def contagemDezenas (draws : List Sorteio) : List (String × Nat) :=
  draws.foldl processSorteioDezenas initContagem

/-- Sum of all counts of a frequency table. -/
def sumCounts (tbl : List (String × Nat)) : Nat :=
  (tbl.map Prod.snd).sum

/-- The number of entries of a draw's `dezenas` list that the loop of lines
110-113 actually counts (present non-empty list, formatted value among the
table's 60 keys). -/
def validDezenas (s : Sorteio) : Nat :=
  match s.dezenas with
  | some l =>
      if l ≠ [] then l.countP (fun d => decide (zfill (pyStr d) 2 ∈ TODAS_DEZENAS)) else 0
  | none => 0

/-! ### Prize ingestion (lines 86-105) and `process_premios_dataframe` (lines 18-37) -/

/-- One row of the raw prize dataframe (`registros_premios`, lines 100-105). -/
structure RegistroPremio : Type where
  concurso : Nat
  data : Option String
  municipio : String
  uf : String
deriving DecidableEq, Repr

/-- Lines 89-105: the records one `ganhador` entry appends to
`registros_premios`.  Python truthiness `if municipio and uf` requires both
present and non-empty; `quantidade` defaults to 1; municipality and state are
upper-cased and stripped; `'N/A'` placeholders are dropped. -/
def registrosOfGanhador (s : Sorteio) (g : Ganhador) : List RegistroPremio :=
  match g.municipio, g.uf with
  | some m, some u =>
      if m ≠ "" ∧ u ≠ "" then
        let municipio_limpo := pyStrip (pyUpper m)
        let uf_limpo := pyStrip (pyUpper u)
        if municipio_limpo ≠ "N/A" ∧ uf_limpo ≠ "N/A" then
          List.replicate (g.quantidade.getD 1) ⟨s.concurso, s.data, municipio_limpo, uf_limpo⟩
        else []
      else []
  | _, _ => []

/-- Lines 87-105: the prize records of one draw.  `if local_ganhadores and
isinstance(local_ganhadores, list)` keeps only a present, non-empty list. -/
def registrosOfSorteio (s : Sorteio) : List RegistroPremio :=
  match s.localGanhadores with
  | some lg => if lg ≠ [] then lg.foldl (fun acc g => acc ++ registrosOfGanhador s g) [] else []
  | none => []

/-- The `registros_premios` accumulation over all draws (lines 80-105). -/
def registrosPremios (draws : List Sorteio) : List RegistroPremio :=
  draws.foldl (fun acc s => acc ++ registrosOfSorteio s) []

/-- One row of the aggregated prize dataframe `df_analise_premios`
(lines 32-35). -/
structure RowPremio : Type where
  uf : String
  municipio : String
  vezes_premiado : Nat
  uf_municipio : String
  total_premios_estado : Nat
deriving DecidableEq, Repr

/-- The invalid state codes of line 26 (`None` cannot arise in the typed
model). -/
def ufsInvalidas : List String := ["--", "XX", "N/A", ""]

/-- Line 24: `df_premios_raw['uf'] = df_premios_raw['uf'].str.strip()`. -/
def stripRegs (regs : List RegistroPremio) : List RegistroPremio :=
  regs.map (fun r => { r with uf := pyStrip r.uf })

/-- Lines 25-27: keep only the rows whose `uf` is not in the invalid set. -/
def filterRegs (regs : List RegistroPremio) : List RegistroPremio :=
  regs.filter (fun r => decide (r.uf ∉ ufsInvalidas))

/-- The output row of one `(uf, municipio)` group key (lines 32-35):
`vezes_premiado` is the group size, `total_premios_estado` the size of the
state's group, merged on `uf`. -/
def mkRowOf (filtered : List RegistroPremio) (k : String × String) : RowPremio :=
  { uf := k.1, municipio := k.2
    vezes_premiado := filtered.countP (fun r => decide (r.uf = k.1 ∧ r.municipio = k.2))
    uf_municipio := k.1 ++ " - " ++ k.2
    total_premios_estado := filtered.countP (fun r => decide (r.uf = k.1)) }

/-- Lines 32-35: `groupby(['uf','municipio']).size()`, the
`uf_municipio` label and the merged per-state totals, modelled by counting
over the filtered rows; group-key order is abstracted to first occurrence. -/
def rowsOf (filtered : List RegistroPremio) : List RowPremio :=
  ((filtered.map (fun r => (r.uf, r.municipio))).dedup).map (mkRowOf filtered)

/-- `process_premios_dataframe` (lines 18-37).  The first component of the
result is the input dataframe after the in-place mutation of line 24; the
second is the returned `df_analise_premios`. -/
def processPremios (regs : List RegistroPremio) : List RegistroPremio × List RowPremio :=
  if regs = [] then (regs, [])
  else
    let stripped := stripRegs regs
    let filtered := filterRegs stripped
    if filtered = [] then (stripped, [])
    else (stripped, rowsOf filtered)

/-! ### Repetition detector: `analisar_repeticao_jogos` (lines 313-342) -/

/-- Lines 333-336: append `concurso` to the entry of `jogo_normalizado` in the
insertion-ordered map, creating the entry at the end if absent. -/
def addConcurso : List (String × List Nat) → String → Nat → List (String × List Nat)
  | [], k, c => [(k, [c])]
  | (k', l) :: t, k, c =>
      if k' = k then (k', l ++ [c]) :: t else (k', l) :: addConcurso t k c

/-- The `mapa_sorteios` built by lines 326-336: only draws with a present,
non-empty `dezenas` list of exactly 6 entries are indexed. -/
def mapaSorteios (draws : List Sorteio) : List (String × List Nat) :=
  draws.foldl (fun m s =>
    match s.dezenas with
    | some dezenas =>
        if dezenas ≠ [] ∧ dezenas.length = 6 then
          addConcurso m (normalize_game dezenas) s.concurso
        else m
    | none => m) []

/-- `analisar_repeticao_jogos` (lines 313-342): the total of line 340 together
with the map. -/
def analisarRepeticaoJogos (draws : List Sorteio) : Nat × List (String × List Nat) :=
  if draws = [] then (0, [])
  else
    let mapa := mapaSorteios draws
    let total := ((((mapa.map Prod.snd).filter (fun c => decide (c.length > 1))).map
      (fun c => c.length - 1)).sum)
    (total, mapa)

/-! ### Suggestion generator: `sugerir_jogos` (lines 254-311)

The `random` module is modelled as a state `G` threaded through each call of
`random.sample` / `random.shuffle`; any concrete behaviour of the Python
functions is an instantiation of the `sampleR` / `shuffleR` parameters. -/

/-- One row of `df_analise_dezenas` as read by `sugerir_jogos`: the `dezena`
string and its `ocorrencias` count. -/
abbrev RowDezena : Type := String × Nat

/-- `df_dezenas.sort_values(by='ocorrencias', ascending=False)` (line 263),
modelled as a sort by descending count. -/
def sortByOcorrencias (df : List RowDezena) : List RowDezena :=
  df.insertionSort (fun a b => b.2 ≤ a.2)

/-- The loop `for _ in range(num_jogos): jogos.append(normalize_game(
random.sample(pool, 6)))` of lines 287-296 (also the fallback of lines
272-274 with `pool = todas`). -/
def loopSamples {G : Type} (sampleR : List String → Nat → G → List String × G)
    (pool : List String) : Nat → G → List String × G
  | 0, g => ([], g)
  | n + 1, g =>
      let p := sampleR pool 6 g
      let rest := loopSamples sampleR pool n p.2
      (normalize_game (p.1.map .strV) :: rest.1, rest.2)

/-- The mixed loop of lines 299-305: 3 from the top 10, 3 from the bottom 10,
concatenated, shuffled, normalized. -/
def loopMisto {G : Type} (sampleR : List String → Nat → G → List String × G)
    (shuffleR : List String → G → List String × G)
    (top_10 bottom_10 : List String) : Nat → G → List String × G
  | 0, g => ([], g)
  | n + 1, g =>
      let pt := sampleR top_10 3 g
      let pb := sampleR bottom_10 3 pt.2
      let jogo := shuffleR (pt.1 ++ pb.1) pb.2
      let rest := loopMisto sampleR shuffleR top_10 bottom_10 n jogo.2
      (normalize_game (jogo.1.map .strV) :: rest.1, rest.2)

/-- Line 283: `top_10 = df_sorted['dezena'].head(10).tolist()` over the
sorted table. -/
def top10Of (df_sorted : List RowDezena) : List String :=
  (df_sorted.take 10).map Prod.fst

/-- Line 284: `bottom_10 = df_sorted['dezena'].tail(10).tolist()` over the
sorted table. -/
def bottom10Of (df_sorted : List RowDezena) : List String :=
  (df_sorted.drop (df_sorted.length - 10)).map Prod.fst

/-- The three fixed category names of the returned dict (lines 276-280 and
307-311). -/
def catMais : String := "Mais Sorteadas (Top 10)"

/-- Second category name. -/
def catMenos : String := "Menos Sorteadas (Bottom 10)"

/-- Third category name. -/
def catMisto : String := "Misturadas (3 Top 10 / 3 Bottom 10)"

/-- `sugerir_jogos` (lines 254-311).  The returned dict is modelled as an
association list in insertion order; the empty dict returns of lines 261 and
269 are `[]`. -/
def sugerirJogos {G : Type} (sampleR : List String → Nat → G → List String × G)
    (shuffleR : List String → G → List String × G)
    (df_dezenas : List RowDezena) (num_jogos : Nat) (g : G) :
    List (String × List String) × G :=
  if df_dezenas = [] then ([], g)
  else
    let df_sorted := sortByOcorrencias df_dezenas
    if df_sorted.length < 10 then
      let todas := df_sorted.map Prod.fst
      if todas.length < 6 then ([], g)
      else
        let jm := loopSamples sampleR todas num_jogos g
        let jn := loopSamples sampleR todas num_jogos jm.2
        let jx := loopSamples sampleR todas num_jogos jn.2
        ([(catMais, jm.1), (catMenos, jn.1), (catMisto, jx.1)], jx.2)
    else
      let top_10 := top10Of df_sorted
      let bottom_10 := bottom10Of df_sorted
      let jm := loopSamples sampleR top_10 num_jogos g
      let jn := loopSamples sampleR bottom_10 num_jogos jm.2
      let jx := loopMisto sampleR shuffleR top_10 bottom_10 num_jogos jn.2
      ([(catMais, jm.1), (catMenos, jn.1), (catMisto, jx.1)], jx.2)

/-! ### Order properties of the embedded string comparison -/

theorem char_toNat_inj {a b : Char} (h : a.toNat = b.toNat) : a = b :=
  Char.eq_of_val_eq (UInt32.ext h)

theorem lexLe_refl (l : List Char) : lexLe l l = true := by
  induction l with
  | nil => rfl
  | cons a as ih => simp [lexLe, ih]

theorem lexLe_total (a b : List Char) : lexLe a b = true ∨ lexLe b a = true := by
  induction a generalizing b with
  | nil => exact Or.inl rfl
  | cons x xs ih =>
    cases b with
    | nil => exact Or.inr rfl
    | cons y ys =>
      by_cases hxy : x = y
      · subst hxy
        rcases ih ys with h | h
        · exact Or.inl (by simp [lexLe, h])
        · exact Or.inr (by simp [lexLe, h])
      · have hne : x.toNat ≠ y.toNat := fun h => hxy (char_toNat_inj h)
        rcases Nat.lt_or_ge x.toNat y.toNat with h | h
        · exact Or.inl (by simp [lexLe, hxy, h])
        · have hlt : y.toNat < x.toNat := Nat.lt_of_le_of_ne h (Ne.symm hne)
          exact Or.inr (by simp [lexLe, Ne.symm hxy, hlt])

theorem lexLe_trans {a b c : List Char} (h1 : lexLe a b = true) (h2 : lexLe b c = true) :
    lexLe a c = true := by
  induction a generalizing b c with
  | nil => rfl
  | cons x xs ih =>
    cases b with
    | nil => simp [lexLe] at h1
    | cons y ys =>
      cases c with
      | nil => simp [lexLe] at h2
      | cons z zs =>
        by_cases hxy : x = y
        · subst hxy
          by_cases hyz : x = z
          · subst hyz
            simp only [lexLe, if_pos rfl] at h1 h2 ⊢
            exact ih h1 h2
          · simp only [lexLe, if_pos rfl] at h1
            simp only [lexLe, if_neg hyz] at h2 ⊢
            exact h2
        · simp only [lexLe, if_neg hxy, decide_eq_true_eq] at h1
          by_cases hyz : y = z
          · subst hyz
            simp only [lexLe, if_neg hxy, decide_eq_true_eq]
            exact h1
          · simp only [lexLe, if_neg hyz, decide_eq_true_eq] at h2
            have hlt : x.toNat < z.toNat := Nat.lt_trans h1 h2
            have hxz : x ≠ z := fun he => absurd (he ▸ hlt) (Nat.lt_irrefl _)
            simp only [lexLe, if_neg hxz, decide_eq_true_eq]
            exact hlt

theorem lexLe_antisymm {a b : List Char} (h1 : lexLe a b = true) (h2 : lexLe b a = true) :
    a = b := by
  induction a generalizing b with
  | nil =>
    cases b with
    | nil => rfl
    | cons y ys => simp [lexLe] at h2
  | cons x xs ih =>
    cases b with
    | nil => simp [lexLe] at h1
    | cons y ys =>
      by_cases hxy : x = y
      · subst hxy
        simp only [lexLe, if_pos rfl] at h1 h2
        rw [ih h1 h2]
      · simp only [lexLe, if_neg hxy, decide_eq_true_eq] at h1
        simp only [lexLe, if_neg (Ne.symm hxy), decide_eq_true_eq] at h2
        exact absurd h1 (Nat.lt_asymm h2)

instance : IsTotal String pyLe := ⟨fun s t => lexLe_total s.data t.data⟩

instance : IsTrans String pyLe := ⟨fun _ _ _ => lexLe_trans⟩

instance : IsAntisymm String pyLe :=
  ⟨fun _ _ h1 h2 => String.ext (lexLe_antisymm h1 h2)⟩

instance : IsRefl String pyLe := ⟨fun s => lexLe_refl s.data⟩

/-- Two lists of strings that are permutations of one another have the same
insertion sort under `pyLe`. -/
theorem insertionSort_pyLe_eq_of_perm {l₁ l₂ : List String} (h : l₁.Perm l₂) :
    l₁.insertionSort pyLe = l₂.insertionSort pyLe :=
  List.eq_of_perm_of_sorted
    ((List.perm_insertionSort _ _).trans (h.trans (List.perm_insertionSort _ _).symm))
    (List.sorted_insertionSort _ _) (List.sorted_insertionSort _ _)

/-- `normalize_game` is invariant under permutation of its argument. -/
theorem normalize_game_perm {jogo jogo' : List PyVal} (h : jogo.Perm jogo') :
    normalize_game jogo = normalize_game jogo' := by
  simp only [normalize_game]
  rw [insertionSort_pyLe_eq_of_perm (h.map _)]

/-! ### Frequency-table lemmas -/

theorem bump_keys (k : String) (t : List (String × Nat)) :
    (bump k t).map Prod.fst = t.map Prod.fst := by
  induction t with
  | nil => rfl
  | cons e t ih =>
    obtain ⟨k', v⟩ := e
    by_cases h : k' = k
    · simp [bump, h]
    · simp [bump, h, ih]

theorem bump_sum_of_mem {k : String} {t : List (String × Nat)} (h : k ∈ t.map Prod.fst) :
    sumCounts (bump k t) = sumCounts t + 1 := by
  induction t with
  | nil => simp at h
  | cons e t ih =>
    obtain ⟨k', v⟩ := e
    by_cases hk : k' = k
    · simp [bump, hk, sumCounts]
      omega
    · have hmem : k ∈ t.map Prod.fst := by
        rcases (List.mem_cons.mp h) with h1 | h1
        · exact absurd h1.symm hk
        · exact h1
      have ih' := ih hmem
      simp only [sumCounts] at ih'
      simp [bump, hk, sumCounts]
      omega

theorem processDezena_keys (tbl : List (String × Nat)) (d : PyVal) :
    (processDezena tbl d).map Prod.fst = tbl.map Prod.fst := by
  simp only [processDezena]
  split
  · exact bump_keys _ _
  · rfl

theorem processDezena_sum (tbl : List (String × Nat)) (d : PyVal) :
    sumCounts (processDezena tbl d) =
      sumCounts tbl + (if zfill (pyStr d) 2 ∈ tbl.map Prod.fst then 1 else 0) := by
  simp only [processDezena]
  split
  · rw [bump_sum_of_mem (by assumption)]
  · simp [*]

theorem foldDezenas_keys (l : List PyVal) (tbl : List (String × Nat)) :
    (l.foldl processDezena tbl).map Prod.fst = tbl.map Prod.fst := by
  induction l generalizing tbl with
  | nil => rfl
  | cons d l ih => rw [List.foldl_cons, ih, processDezena_keys]

theorem foldDezenas_sum (l : List PyVal) (tbl : List (String × Nat)) :
    sumCounts (l.foldl processDezena tbl) =
      sumCounts tbl + l.countP (fun d => decide (zfill (pyStr d) 2 ∈ tbl.map Prod.fst)) := by
  induction l generalizing tbl with
  | nil => simp
  | cons d l ih =>
    rw [List.foldl_cons, ih, processDezena_keys, processDezena_sum, List.countP_cons]
    by_cases h : zfill (pyStr d) 2 ∈ tbl.map Prod.fst
    · simp [h]
      omega
    · simp [h]

theorem processSorteioDezenas_keys (tbl : List (String × Nat)) (s : Sorteio) :
    (processSorteioDezenas tbl s).map Prod.fst = tbl.map Prod.fst := by
  unfold processSorteioDezenas
  cases s.dezenas with
  | none => rfl
  | some l =>
    by_cases h : l = []
    · simp [h]
    · simp [h, foldDezenas_keys]

theorem processSorteioDezenas_sum (tbl : List (String × Nat)) (s : Sorteio)
    (hk : tbl.map Prod.fst = TODAS_DEZENAS) :
    sumCounts (processSorteioDezenas tbl s) = sumCounts tbl + validDezenas s := by
  unfold processSorteioDezenas validDezenas
  cases s.dezenas with
  | none => simp
  | some l =>
    by_cases h : l = []
    · simp [h]
    · simp only [h, ne_eq, not_false_eq_true, if_true, ite_not]
      rw [foldDezenas_sum, hk]

theorem contagem_aux (draws : List Sorteio) :
    ∀ tbl : List (String × Nat), tbl.map Prod.fst = TODAS_DEZENAS →
      (draws.foldl processSorteioDezenas tbl).map Prod.fst = TODAS_DEZENAS ∧
      sumCounts (draws.foldl processSorteioDezenas tbl) =
        sumCounts tbl + (draws.map validDezenas).sum := by
  induction draws with
  | nil => intro tbl hk; simpa using hk
  | cons s draws ih =>
    intro tbl hk
    rw [List.foldl_cons]
    have hk' : (processSorteioDezenas tbl s).map Prod.fst = TODAS_DEZENAS := by
      rw [processSorteioDezenas_keys, hk]
    refine ⟨(ih _ hk').1, ?_⟩
    rw [(ih _ hk').2, processSorteioDezenas_sum tbl s hk]
    simp only [List.map_cons, List.sum_cons]
    omega

theorem initContagem_keys : initContagem.map Prod.fst = TODAS_DEZENAS := by
  simp [initContagem, List.map_map, Function.comp_def]

theorem initContagem_sum : sumCounts initContagem = 0 := by decide

theorem contagem_keys (draws : List Sorteio) :
    (contagemDezenas draws).map Prod.fst = TODAS_DEZENAS :=
  (contagem_aux draws initContagem initContagem_keys).1

theorem contagem_sum (draws : List Sorteio) :
    sumCounts (contagemDezenas draws) = (draws.map validDezenas).sum := by
  have h := (contagem_aux draws initContagem initContagem_keys).2
  rw [initContagem_sum] at h
  simpa [contagemDezenas] using h

/-- Helper: if every draw has exactly 6 countable numbers, the per-draw valid
counts sum to `6 * D`. -/
theorem validDezenas_sum_of_all_six (l : List Sorteio) (h : ∀ s ∈ l, validDezenas s = 6) :
    (l.map validDezenas).sum = 6 * l.length := by
  induction l with
  | nil => rfl
  | cons s tl ih =>
    simp only [List.map_cons, List.sum_cons, List.length_cons]
    rw [h s (by simp), ih (fun a ha => h a (by simp [ha]))]
    ring

/-- A draw record with only 5 numbers, used to refute C1 as stated. -/
def sorteioC1 : Sorteio :=
  ⟨1, none, some [.intV 1, .intV 2, .intV 3, .intV 4, .intV 5], none⟩

/-- C1 counterexample: a single draw with 5 valid numbers makes the counts sum
to 5, not `6 ×` (number of draws with exactly 6 valid numbers) `= 0`: numbers
of short draws do contribute to the table. -/
theorem contagem_soma_contraexemplo :
    sumCounts (contagemDezenas [sorteioC1]) ≠
      6 * ([sorteioC1].countP (fun s => validDezenas s == 6)) := by decide

/-- C1 (amended): the sum of all 60 counts equals the total number of valid
entries over all draw records; in particular it is `6 × D` when every record
has exactly 6 valid numbers. -/
theorem freq_conservation (draws : List Sorteio) :
    sumCounts (contagemDezenas draws) = (draws.map validDezenas).sum ∧
      ((∀ s ∈ draws, validDezenas s = 6) →
        sumCounts (contagemDezenas draws) = 6 * draws.length) := by
  refine ⟨contagem_sum draws, fun h => ?_⟩
  rw [contagem_sum draws, validDezenas_sum_of_all_six draws h]

/-- C1 witness: the amended conservation law evaluated on one complete draw. -/
theorem freq_conservation_witness :
    sumCounts (contagemDezenas
      [⟨1, none, some [.intV 4, .intV 8, .intV 15, .intV 16, .intV 23, .intV 42], none⟩]) =
      6 * 1 :=
  (freq_conservation _).2 (by decide)

/-- C10: the key set of the frequency table is always exactly `TODAS_DEZENAS`
(`"01"`..`"60"`), any value whose two-digit form is not a table key is skipped
without effect, and `0`, `61` and `"abc"` are examples of skipped values. -/
theorem contagem_chaves_sempre (draws : List Sorteio) :
    (contagemDezenas draws).map Prod.fst = TODAS_DEZENAS ∧
      (∀ (tbl : List (String × Nat)) (d : PyVal),
        zfill (pyStr d) 2 ∉ tbl.map Prod.fst → processDezena tbl d = tbl) ∧
      zfill (pyStr (.intV 0)) 2 ∉ TODAS_DEZENAS ∧
      zfill (pyStr (.intV 61)) 2 ∉ TODAS_DEZENAS ∧
      zfill (pyStr (.strV "abc")) 2 ∉ TODAS_DEZENAS := by
  refine ⟨contagem_keys draws, fun tbl d h => ?_, by decide, by decide, by decide⟩
  simp [processDezena, h]

/-- C10 witness: processing the out-of-range value `0` leaves the initial
table unchanged. -/
theorem contagem_chaves_sempre_witness :
    processDezena initContagem (.intV 0) = initContagem :=
  (contagem_chaves_sempre []).2.1 initContagem (.intV 0) (by decide)

/-- The three-draw scenario of C3 (contest 2 uses different numbers, contests
1 and 3 draw the same six numbers in different orders). -/
def drawsRepeticao : List Sorteio :=
  [⟨1, none, some [.intV 4, .intV 8, .intV 15, .intV 16, .intV 23, .intV 42], none⟩,
   ⟨2, none, some [.intV 1, .intV 2, .intV 3, .intV 4, .intV 5, .intV 6], none⟩,
   ⟨3, none, some [.intV 42, .intV 23, .intV 16, .intV 15, .intV 8, .intV 4], none⟩]

/-- C3: on the literal scenario the index maps `04-08-15-16-23-42` to `[1, 3]`
and the returned total is 1; in general the returned total equals
`sum(len(list) - 1)` over the index entries whose list has length `> 1`. -/
theorem repeticao_cenario :
    ((analisarRepeticaoJogos drawsRepeticao).2.lookup "04-08-15-16-23-42" = some [1, 3]) ∧
      ((analisarRepeticaoJogos drawsRepeticao).1 = 1) ∧
      (∀ draws : List Sorteio,
        (analisarRepeticaoJogos draws).1 =
          ((((analisarRepeticaoJogos draws).2.map Prod.snd).filter
            (fun c => decide (c.length > 1))).map (fun c => c.length - 1)).sum) := by
  refine ⟨by decide, by decide, ?_⟩
  intro draws
  by_cases h : draws = []
  · subst h; rfl
  · simp only [analisarRepeticaoJogos, if_neg h]

/-! ### Prize-aggregation lemmas -/

/-- Every output row of `processPremios` is a group row over the stripped,
filtered input. -/
theorem mem_snd_processPremios {regs : List RegistroPremio} {row : RowPremio}
    (h : row ∈ (processPremios regs).2) :
    row ∈ rowsOf (filterRegs (stripRegs regs)) := by
  simp only [processPremios] at h
  split at h
  · simp at h
  · split at h
    · simp at h
    · exact h

/-- When the filtered input is non-empty, `processPremios` returns exactly the
group rows. -/
theorem processPremios_snd_of_ne {regs : List RegistroPremio} (h0 : regs ≠ [])
    (h1 : filterRegs (stripRegs regs) ≠ []) :
    (processPremios regs).2 = rowsOf (filterRegs (stripRegs regs)) := by
  simp only [processPremios, if_neg h0, if_neg h1]

/-- Bridging: boolean pair equality versus the decided conjunction used by
`mkRowOf`. -/
theorem pairBeq_eq (r : RegistroPremio) (k : String × String) :
    ((r.uf, r.municipio) == k) = decide (r.uf = k.1 ∧ r.municipio = k.2) := by
  rcases k with ⟨u, m⟩
  rw [Bool.eq_iff_iff]
  simp [Prod.ext_iff]

/-- A record of `stripRegs` that survives `filterRegs` yields an output group
row carrying its stripped state and municipality. -/
theorem processPremios_mem_row {regs : List RegistroPremio} {r : RegistroPremio}
    (hr : r ∈ regs) (hv : pyStrip r.uf ∉ ufsInvalidas) :
    ∃ row ∈ (processPremios regs).2, row.uf = pyStrip r.uf ∧ row.municipio = r.municipio := by
  have h0 : regs ≠ [] := List.ne_nil_of_mem hr
  have hr' : ({ r with uf := pyStrip r.uf } : RegistroPremio) ∈ stripRegs regs :=
    List.mem_map_of_mem _ hr
  have hrf : ({ r with uf := pyStrip r.uf } : RegistroPremio) ∈ filterRegs (stripRegs regs) :=
    List.mem_filter.mpr ⟨hr', by simpa using hv⟩
  have h1 : filterRegs (stripRegs regs) ≠ [] := List.ne_nil_of_mem hrf
  rw [processPremios_snd_of_ne h0 h1]
  refine ⟨mkRowOf (filterRegs (stripRegs regs)) (pyStrip r.uf, r.municipio), ?_, rfl, rfl⟩
  exact List.mem_map_of_mem _ (List.mem_dedup.mpr (List.mem_map_of_mem _ hrf))

/-- C5: no output row carries an invalid state code, and two winner entries
whose municipality and state agree after upper-casing and stripping produce
prize records in the same `(state, municipality)` bucket. -/
theorem premios_filtro :
    (∀ (regs : List RegistroPremio), ∀ row ∈ (processPremios regs).2,
       row.uf ∉ ufsInvalidas) ∧
    (∀ (s s' : Sorteio) (g g' : Ganhador) (m u m' u' : String),
       g.municipio = some m → g.uf = some u →
       g'.municipio = some m' → g'.uf = some u' →
       pyStrip (pyUpper m) = pyStrip (pyUpper m') →
       pyStrip (pyUpper u) = pyStrip (pyUpper u') →
       ∀ r ∈ registrosOfGanhador s g, ∀ r' ∈ registrosOfGanhador s' g',
         r.uf = r'.uf ∧ r.municipio = r'.municipio) := by
  constructor
  · intro regs row h
    have h' := mem_snd_processPremios h
    rcases List.mem_map.mp h' with ⟨k, hk, rfl⟩
    rcases List.mem_map.mp (List.mem_dedup.mp hk) with ⟨r, hrF, hpair⟩
    have huf : r.uf ∉ ufsInvalidas := by
      have := (List.mem_filter.mp hrF).2
      simpa using this
    have : (mkRowOf (filterRegs (stripRegs regs)) k).uf = r.uf := by
      show k.1 = r.uf
      rw [← hpair]
    rw [this]
    exact huf
  · intro s s' g g' m u m' u' hm hu hm' hu' hmeq hueq r hr r' hr'
    rcases g with ⟨q, gm, gu⟩
    rcases g' with ⟨q', gm', gu'⟩
    cases hm; cases hu; cases hm'; cases hu'
    simp only [registrosOfGanhador] at hr hr'
    split at hr
    · split at hr
      · split at hr'
        · split at hr'
          · have e := List.eq_of_mem_replicate hr
            have e' := List.eq_of_mem_replicate hr'
            subst e; subst e'
            exact ⟨hueq, hmeq⟩
          · simp at hr'
        · simp at hr'
      · simp at hr
    · simp at hr

/-- C5 witness: concrete instances of both parts of `premios_filtro`. -/
theorem premios_filtro_witness :
    (RowPremio.uf ⟨"SP", "CAMPINAS", 1, "SP - CAMPINAS", 1⟩ ∉ ufsInvalidas) ∧
    (∀ r ∈ registrosOfGanhador ⟨1, none, none, none⟩ ⟨some 1, some "Campinas", some " sp "⟩,
     ∀ r' ∈ registrosOfGanhador ⟨2, none, none, none⟩ ⟨some 1, some "CAMPINAS", some "SP"⟩,
       r.uf = r'.uf ∧ r.municipio = r'.municipio) := by
  constructor
  · exact premios_filtro.1 [⟨1, none, "CAMPINAS", "SP"⟩]
      ⟨"SP", "CAMPINAS", 1, "SP - CAMPINAS", 1⟩ (by decide)
  · exact premios_filtro.2 ⟨1, none, none, none⟩ ⟨2, none, none, none⟩
      ⟨some 1, some "Campinas", some " sp "⟩ ⟨some 1, some "CAMPINAS", some "SP"⟩
      "Campinas" " sp " "CAMPINAS" "SP" rfl rfl rfl rfl (by decide) (by decide)

/-- Instance-clean form of `List.sum_map_count_dedup_filter_eq_countP`:
summing, over the deduplicated keys satisfying `p`, the number of occurrences
of each key, counts exactly the elements satisfying `p`. -/
theorem sum_countP_dedup (P : List (String × String)) (p : String × String → Bool) :
    ((P.dedup.filter p).map (fun x => P.countP (fun y => decide (y = x)))).sum =
      P.countP p := by
  have h := List.sum_map_count_dedup_filter_eq_countP p P
  have hc : ∀ x : String × String,
      @List.count _ instBEqOfDecidableEq x P = P.countP (fun y => decide (y = x)) := by
    intro x
    rw [@List.count_eq_countP _ instBEqOfDecidableEq]
    rfl
  rw [List.map_congr_left (fun x _ => hc x)] at h
  exact h

/-- The per-state total of a group row equals the sum of the group sizes of
the rows sharing its state. -/
theorem subtotal_rowsOf (F : List RegistroPremio) (row : RowPremio) (h : row ∈ rowsOf F) :
    row.total_premios_estado =
      (((rowsOf F).filter (fun r' => r'.uf == row.uf)).map RowPremio.vezes_premiado).sum := by
  rcases List.mem_map.mp h with ⟨k, hk, rfl⟩
  have huf : (mkRowOf F k).uf = k.1 := rfl
  rw [huf]
  show F.countP (fun r => decide (r.uf = k.1)) = _
  unfold rowsOf
  rw [List.filter_map]
  have hcomp : ((fun r' : RowPremio => r'.uf == k.1) ∘ mkRowOf F) =
      (fun k' : String × String => k'.1 == k.1) := rfl
  rw [hcomp, List.map_map]
  have hvz : ∀ k' ∈ ((F.map (fun r => (r.uf, r.municipio))).dedup.filter
      (fun k' : String × String => k'.1 == k.1)),
      (RowPremio.vezes_premiado ∘ mkRowOf F) k' =
        (F.map (fun r => (r.uf, r.municipio))).countP (fun y => decide (y = k')) := by
    intro k' _
    show F.countP (fun r => decide (r.uf = k'.1 ∧ r.municipio = k'.2)) = _
    rw [List.countP_map]
    have hfun : (fun r : RegistroPremio => decide (r.uf = k'.1 ∧ r.municipio = k'.2)) =
        ((fun y : String × String => decide (y = k')) ∘
          (fun r : RegistroPremio => (r.uf, r.municipio))) := by
      funext r
      rw [Bool.eq_iff_iff]
      simp [Prod.ext_iff]
    rw [hfun]
  rw [List.map_congr_left hvz, sum_countP_dedup, List.countP_map]
  refine List.countP_congr ?_
  intro r _
  simp [Function.comp]

/-- C8: every output row's per-state subtotal equals the sum of the
per-municipality winner counts over the output rows of that state. -/
theorem subtotal_estado (regs : List RegistroPremio) (row : RowPremio)
    (h : row ∈ (processPremios regs).2) :
    row.total_premios_estado =
      (((processPremios regs).2.filter (fun r' => r'.uf == row.uf)).map
        RowPremio.vezes_premiado).sum := by
  by_cases h0 : regs = []
  · subst h0
    simp [processPremios] at h
  · by_cases h1 : filterRegs (stripRegs regs) = []
    · have hsnd : (processPremios regs).2 = [] := by
        simp [processPremios, if_neg h0, h1]
      rw [hsnd] at h
      simp at h
    · have hsnd := processPremios_snd_of_ne h0 h1
      rw [hsnd] at h ⊢
      exact subtotal_rowsOf _ _ h

/-- C8 witness: two São Paulo municipalities, subtotal 2 = 1 + 1. -/
theorem subtotal_estado_witness :
    (⟨"SP", "CAMPINAS", 1, "SP - CAMPINAS", 2⟩ : RowPremio).total_premios_estado =
      (((processPremios [⟨1, none, "CAMPINAS", "SP"⟩, ⟨1, none, "SANTOS", "SP"⟩]).2.filter
        (fun r' => r'.uf == (⟨"SP", "CAMPINAS", 1, "SP - CAMPINAS", 2⟩ : RowPremio).uf)).map
        RowPremio.vezes_premiado).sum :=
  subtotal_estado [⟨1, none, "CAMPINAS", "SP"⟩, ⟨1, none, "SANTOS", "SP"⟩]
    ⟨"SP", "CAMPINAS", 1, "SP - CAMPINAS", 2⟩ (by decide)

/-- C9: on normalized input (state codes already stripped) the prize
aggregation leaves its input unchanged (the in-place strip of line 24
rewrites every `uf` to itself) and running it a second time on that input
returns the same output. -/
theorem premios_idempotente (regs : List RegistroPremio)
    (hnorm : ∀ r ∈ regs, pyStrip r.uf = r.uf) :
    (processPremios regs).1 = regs ∧
      (processPremios ((processPremios regs).1)).2 = (processPremios regs).2 := by
  have hstrip : stripRegs regs = regs := by
    unfold stripRegs
    have h : ∀ r ∈ regs, ({ r with uf := pyStrip r.uf } : RegistroPremio) = r := by
      intro r hr
      have := hnorm r hr
      cases r
      simp_all
    rw [List.map_congr_left h]
    simp
  have h1 : (processPremios regs).1 = regs := by
    by_cases h0 : regs = []
    · simp [processPremios, h0]
    · simp only [processPremios, if_neg h0]
      split
      · exact hstrip
      · exact hstrip
  exact ⟨h1, by rw [h1]⟩

/-- C9 witness: a concrete normalized input is returned unchanged and
re-aggregates to the same output. -/
theorem premios_idempotente_witness :
    (processPremios [⟨1, none, "CAMPINAS", "SP"⟩]).1 = [⟨1, none, "CAMPINAS", "SP"⟩] ∧
      (processPremios ((processPremios [⟨1, none, "CAMPINAS", "SP"⟩]).1)).2 =
        (processPremios [⟨1, none, "CAMPINAS", "SP"⟩]).2 :=
  premios_idempotente [⟨1, none, "CAMPINAS", "SP"⟩] (by decide)

/-- A draw with only 5 numbers that still carries winner-location data, used
for C2. -/
def sorteioIncompleto : Sorteio :=
  ⟨7, none, some [.intV 1, .intV 2, .intV 3, .intV 4, .intV 5],
   some [⟨some 2, some "Campinas", some " sp "⟩]⟩

/-- C2 counterexample: a 5-number draw record does contribute to the
frequency table (key `"01"` moves from 0 to 1), contrary to the claim that it
contributes nothing. -/
theorem registro_incompleto_contribui_frequencia :
    contagemDezenas [sorteioIncompleto] ≠ initContagem ∧
      (contagemDezenas [sorteioIncompleto]).lookup "01" = some 1 ∧
      initContagem.lookup "01" = some 0 := by
  refine ⟨?_, by decide, by decide⟩
  decide

/-- C2 (amended): appending a draw record whose number list has 5 entries
leaves the repetition index unchanged, adds one count per valid entry (5 when
all are in range) to the frequency table, and still appends its winner rows
to the raw prize table, each surviving row yielding an output bucket. -/
theorem registro_incompleto (draws : List Sorteio) (s : Sorteio) (l : List PyVal)
    (hd : s.dezenas = some l) (h5 : l.length = 5) :
    mapaSorteios (draws ++ [s]) = mapaSorteios draws ∧
      sumCounts (contagemDezenas (draws ++ [s])) =
        sumCounts (contagemDezenas draws) + validDezenas s ∧
      registrosPremios (draws ++ [s]) = registrosPremios draws ++ registrosOfSorteio s ∧
      (∀ r ∈ registrosOfSorteio s, pyStrip r.uf ∉ ufsInvalidas →
        ∃ row ∈ (processPremios (registrosPremios (draws ++ [s]))).2,
          row.uf = pyStrip r.uf ∧ row.municipio = r.municipio) := by
  have hreg : registrosPremios (draws ++ [s]) =
      registrosPremios draws ++ registrosOfSorteio s := by
    unfold registrosPremios
    rw [List.foldl_append]
    rfl
  refine ⟨?_, ?_, hreg, ?_⟩
  · unfold mapaSorteios
    rw [List.foldl_append]
    simp [hd, h5]
  · show sumCounts (List.foldl processSorteioDezenas initContagem (draws ++ [s])) = _
    rw [List.foldl_append]
    show sumCounts (processSorteioDezenas (contagemDezenas draws) s) = _
    rw [processSorteioDezenas_sum _ _ (contagem_keys draws)]
  · intro r hr hv
    refine processPremios_mem_row ?_ hv
    rw [hreg]
    exact List.mem_append_right _ hr

/-- C2 witness: the amended statement evaluated on the concrete 5-number
draw with one winner entry in lower-case with surrounding spaces. -/
theorem registro_incompleto_witness :
    mapaSorteios [sorteioIncompleto] = mapaSorteios [] ∧
      sumCounts (contagemDezenas [sorteioIncompleto]) =
        sumCounts (contagemDezenas []) + validDezenas sorteioIncompleto ∧
      registrosPremios [sorteioIncompleto] =
        registrosPremios [] ++ registrosOfSorteio sorteioIncompleto ∧
      (∀ r ∈ registrosOfSorteio sorteioIncompleto, pyStrip r.uf ∉ ufsInvalidas →
        ∃ row ∈ (processPremios (registrosPremios [sorteioIncompleto])).2,
          row.uf = pyStrip r.uf ∧ row.municipio = r.municipio) := by
  have h := registro_incompleto [] sorteioIncompleto
    [.intV 1, .intV 2, .intV 3, .intV 4, .intV 5] rfl rfl
  simpa using h

/-! ### C4: canonicalization -/

/-- The canonical key as the spec words it: the numbers sorted ascending (as
numbers), each zero-padded to two digits, joined with `'-'`.  Stated from the
spec for comparison with `normalize_game`, which sorts the padded strings. -/
def canonicalKey (l : List Nat) : String :=
  "-".intercalate ((l.insertionSort (· ≤ ·)).map (fun n => zfill (toString n) 2))

/-- The Python values that denote the drawn number `n`: the int itself, its
decimal string, or its zero-padded two-digit string. -/
def represents (n : Nat) (v : PyVal) : Prop :=
  v = .intV n ∨ v = .strV (toString n) ∨ v = .strV (zfill (toString n) 2)

instance (n : Nat) (v : PyVal) : Decidable (represents n v) :=
  inferInstanceAs (Decidable (_ ∨ _ ∨ _))

/-- Zero-padding a number of the board twice equals padding it once. -/
theorem zfill2_idem : ∀ n : Nat, n < 61 →
    zfill (zfill (toString n) 2) 2 = zfill (toString n) 2 := by decide

/-- On the board range, two-digit padding preserves and reflects order:
string comparison of padded numbers is numeric comparison. -/
theorem pad_le_iff : ∀ a : Nat, a < 61 → ∀ b : Nat, b < 61 →
    (pyLe (zfill (toString a) 2) (zfill (toString b) 2) ↔ a ≤ b) := by decide

/-- Any Python rendering of a board number formats to its two-digit pad. -/
theorem zfill_pyStr_of_represents {n : Nat} {v : PyVal} (h : represents n v)
    (hn : n < 61) : zfill (pyStr v) 2 = zfill (toString n) 2 := by
  rcases h with h | h | h
  · subst h
    rfl
  · subst h
    rfl
  · subst h
    exact zfill2_idem n hn

/-- C4: for a 6-number list over 1..60, rendered as ints or strings in any
order, `normalize_game` returns the canonical key: the numbers sorted
ascending, zero-padded to two digits, joined with `'-'`. -/
theorem normalize_game_canonico (l : List Nat) (jogo jogo' : List PyVal)
    (hrange : ∀ n ∈ l, 1 ≤ n ∧ n ≤ 60) (_h6 : l.length = 6)
    (hrep : List.Forall₂ represents l jogo) (hperm : jogo.Perm jogo') :
    normalize_game jogo' = canonicalKey l := by
  rw [← normalize_game_perm hperm]
  have hmap : jogo.map (fun d => zfill (pyStr d) 2) =
      l.map (fun n => zfill (toString n) 2) := by
    clear hperm _h6
    induction hrep with
    | nil => rfl
    | cons h t ih =>
      simp only [List.map_cons]
      rw [zfill_pyStr_of_represents h
        (Nat.lt_succ_of_le (hrange _ (List.mem_cons_self _ _)).2),
        ih (fun n hn => hrange n (List.mem_cons_of_mem _ hn))]
  have hsort : ((l.map (fun n => zfill (toString n) 2)).insertionSort pyLe) =
      (l.insertionSort (· ≤ ·)).map (fun n => zfill (toString n) 2) := by
    refine @List.eq_of_perm_of_sorted String pyLe _ _ _ ?_ ?_ ?_
    · exact (List.perm_insertionSort _ _).trans
        (((List.perm_insertionSort _ l).symm).map _)
    · exact List.sorted_insertionSort _ _
    · have hs : List.Sorted (· ≤ ·) (l.insertionSort (· ≤ ·)) :=
        List.sorted_insertionSort _ _
      have hmem : ∀ a ∈ l.insertionSort (· ≤ ·), a < 61 := by
        intro a ha
        have ha' : a ∈ l := (List.perm_insertionSort _ _).subset ha
        exact Nat.lt_succ_of_le (hrange a ha').2
      show List.Pairwise pyLe _
      rw [List.pairwise_map]
      exact hs.imp_of_mem (fun {a b} ha hb hab =>
        (pad_le_iff a (hmem a ha) b (hmem b hb)).mpr hab)
  show "-".intercalate ((jogo.map (fun d => zfill (pyStr d) 2)).insertionSort pyLe) = _
  rw [hmap, hsort]
  rfl

/-- C4 witness: the canonical key of the reversed rendering of
`{4, 8, 15, 16, 23, 42}`. -/
theorem normalize_game_canonico_witness :
    normalize_game [.intV 42, .intV 23, .intV 16, .intV 15, .intV 8, .intV 4] =
      canonicalKey [4, 8, 15, 16, 23, 42] :=
  normalize_game_canonico [4, 8, 15, 16, 23, 42]
    [.intV 4, .intV 8, .intV 15, .intV 16, .intV 23, .intV 42]
    [.intV 42, .intV 23, .intV 16, .intV 15, .intV 8, .intV 4]
    (by decide) (by decide)
    (List.Forall₂.cons (by decide) (List.Forall₂.cons (by decide)
      (List.Forall₂.cons (by decide) (List.Forall₂.cons (by decide)
        (List.Forall₂.cons (by decide) (List.Forall₂.cons (by decide)
          List.Forall₂.nil))))))
    (by decide)

/-! ### Suggestion-generator lemmas (C6, C7) -/

/-- What any behaviour of `random.sample` guarantees: the requested size, no
repeated positions (hence no repeated values on a duplicate-free pool), and
membership in the pool. -/
def SampleSpec {G : Type} (sampleR : List String → Nat → G → List String × G) : Prop :=
  ∀ (pool : List String) (k : Nat) (g : G), k ≤ pool.length →
    (sampleR pool k g).1.length = k ∧
    (pool.Nodup → (sampleR pool k g).1.Nodup) ∧
    ∀ x ∈ (sampleR pool k g).1, x ∈ pool

/-- The per-category sampling loop returns `n` keys, each the normalization
of a 6-element duplicate-free subset of the pool. -/
theorem loopSamples_spec {G : Type} {sampleR : List String → Nat → G → List String × G}
    (hs : SampleSpec sampleR) (pool : List String) (hp6 : 6 ≤ pool.length)
    (hpn : pool.Nodup) :
    ∀ (n : Nat) (g : G),
      (loopSamples sampleR pool n g).1.length = n ∧
      ∀ j ∈ (loopSamples sampleR pool n g).1, ∃ s : List String,
        s.length = 6 ∧ s.Nodup ∧ (∀ x ∈ s, x ∈ pool) ∧
          j = normalize_game (s.map .strV) := by
  intro n
  induction n with
  | zero => intro g; exact ⟨rfl, by simp [loopSamples]⟩
  | succ n ih =>
    intro g
    obtain ⟨hl, hnd, hsub⟩ := hs pool 6 g hp6
    constructor
    · simp only [loopSamples, List.length_cons, (ih _).1]
    · intro j hj
      simp only [loopSamples, List.mem_cons] at hj
      rcases hj with hj | hj
      · exact ⟨(sampleR pool 6 g).1, hl, hnd hpn, hsub, hj⟩
      · exact (ih _).2 j hj

/-- The mixed loop returns `n` keys, each the normalization of 3 distinct
top-pool values followed by 3 distinct bottom-pool values (the shuffle is
cancelled by the order-independence of `normalize_game`). -/
theorem loopMisto_spec {G : Type} {sampleR : List String → Nat → G → List String × G}
    {shuffleR : List String → G → List String × G}
    (hs : SampleSpec sampleR) (hsh : ∀ (l : List String) (g : G), ((shuffleR l g).1).Perm l)
    (top_10 bottom_10 : List String) (ht : 3 ≤ top_10.length) (hb : 3 ≤ bottom_10.length)
    (htn : top_10.Nodup) (hbn : bottom_10.Nodup) :
    ∀ (n : Nat) (g : G),
      (loopMisto sampleR shuffleR top_10 bottom_10 n g).1.length = n ∧
      ∀ j ∈ (loopMisto sampleR shuffleR top_10 bottom_10 n g).1,
        ∃ t b : List String, t.length = 3 ∧ t.Nodup ∧ (∀ x ∈ t, x ∈ top_10) ∧
          b.length = 3 ∧ b.Nodup ∧ (∀ x ∈ b, x ∈ bottom_10) ∧
          j = normalize_game ((t ++ b).map .strV) := by
  intro n
  induction n with
  | zero => intro g; exact ⟨rfl, by simp [loopMisto]⟩
  | succ n ih =>
    intro g
    obtain ⟨hlt, hndt, hsubt⟩ := hs top_10 3 g ht
    obtain ⟨hlb, hndb, hsubb⟩ := hs bottom_10 3 (sampleR top_10 3 g).2 hb
    constructor
    · simp only [loopMisto, List.length_cons, (ih _).1]
    · intro j hj
      simp only [loopMisto, List.mem_cons] at hj
      rcases hj with hj | hj
      · refine ⟨(sampleR top_10 3 g).1, (sampleR bottom_10 3 (sampleR top_10 3 g).2).1,
          hlt, hndt htn, hsubt, hlb, hndb hbn, hsubb, ?_⟩
        rw [hj]
        exact normalize_game_perm ((hsh _ _).map _)
      · exact (ih _).2 j hj

/-- C6 (amended): with at least 10 represented numbers the generator returns,
for each of the three categories, exactly `n` keys (not necessarily pairwise
distinct): high-frequency keys normalize 6 distinct numbers of the top-10
stratum, low-frequency keys 6 distinct numbers of the bottom-10 stratum, and
mixed keys 3 distinct top-10 numbers plus 3 distinct bottom-10 numbers (the
two strata can overlap when fewer than 20 numbers are represented, so a mixed
key may repeat a number). -/
theorem sugerir_jogos_categorias {G : Type}
    (sampleR : List String → Nat → G → List String × G)
    (shuffleR : List String → G → List String × G)
    (hs : SampleSpec sampleR)
    (hsh : ∀ (l : List String) (g : G), ((shuffleR l g).1).Perm l)
    (df : List RowDezena) (n : Nat) (g : G)
    (hn : (df.map Prod.fst).Nodup) (h10 : 10 ≤ df.length) :
    ∃ jm jn jx : List String,
      (sugerirJogos sampleR shuffleR df n g).1 =
        [(catMais, jm), (catMenos, jn), (catMisto, jx)] ∧
      jm.length = n ∧ jn.length = n ∧ jx.length = n ∧
      (∀ j ∈ jm, ∃ s : List String, s.length = 6 ∧ s.Nodup ∧
        (∀ x ∈ s, x ∈ top10Of (sortByOcorrencias df)) ∧
        j = normalize_game (s.map .strV)) ∧
      (∀ j ∈ jn, ∃ s : List String, s.length = 6 ∧ s.Nodup ∧
        (∀ x ∈ s, x ∈ bottom10Of (sortByOcorrencias df)) ∧
        j = normalize_game (s.map .strV)) ∧
      (∀ j ∈ jx, ∃ t b : List String,
        t.length = 3 ∧ t.Nodup ∧ (∀ x ∈ t, x ∈ top10Of (sortByOcorrencias df)) ∧
        b.length = 3 ∧ b.Nodup ∧ (∀ x ∈ b, x ∈ bottom10Of (sortByOcorrencias df)) ∧
        j = normalize_game ((t ++ b).map .strV)) := by
  have hdfne : df ≠ [] := by
    intro h
    rw [h] at h10
    simp at h10
  have hlen : (sortByOcorrencias df).length = df.length :=
    List.length_insertionSort _ _
  have hnotlt : ¬ (sortByOcorrencias df).length < 10 := by omega
  have hsortnd : ((sortByOcorrencias df).map Prod.fst).Nodup := by
    have hp : List.Perm ((sortByOcorrencias df).map Prod.fst) (df.map Prod.fst) :=
      (List.perm_insertionSort _ df).map _
    exact hp.nodup_iff.mpr hn
  have htnd : (top10Of (sortByOcorrencias df)).Nodup := by
    unfold top10Of
    rw [List.map_take]
    exact hsortnd.sublist (List.take_sublist _ _)
  have hbnd : (bottom10Of (sortByOcorrencias df)).Nodup := by
    unfold bottom10Of
    rw [List.map_drop]
    exact hsortnd.sublist (List.drop_sublist _ _)
  have htl : (top10Of (sortByOcorrencias df)).length = 10 := by
    unfold top10Of
    rw [List.length_map, List.length_take]
    omega
  have hbl : (bottom10Of (sortByOcorrencias df)).length = 10 := by
    unfold bottom10Of
    rw [List.length_map, List.length_drop]
    omega
  have hmais := loopSamples_spec hs (top10Of (sortByOcorrencias df)) (by omega) htnd
  have hmenos := loopSamples_spec hs (bottom10Of (sortByOcorrencias df)) (by omega) hbnd
  have hmisto := loopMisto_spec hs hsh (top10Of (sortByOcorrencias df))
    (bottom10Of (sortByOcorrencias df)) (by omega) (by omega) htnd hbnd
  have hunf : (sugerirJogos sampleR shuffleR df n g).1 =
      [(catMais, (loopSamples sampleR (top10Of (sortByOcorrencias df)) n g).1),
       (catMenos, (loopSamples sampleR (bottom10Of (sortByOcorrencias df)) n
         (loopSamples sampleR (top10Of (sortByOcorrencias df)) n g).2).1),
       (catMisto, (loopMisto sampleR shuffleR (top10Of (sortByOcorrencias df))
         (bottom10Of (sortByOcorrencias df)) n
         (loopSamples sampleR (bottom10Of (sortByOcorrencias df)) n
           (loopSamples sampleR (top10Of (sortByOcorrencias df)) n g).2).2).1)] := by
    simp only [sugerirJogos, if_neg hdfne, if_neg hnotlt]
  exact ⟨_, _, _, hunf, (hmais n g).1,
    (hmenos n (loopSamples sampleR (top10Of (sortByOcorrencias df)) n g).2).1,
    (hmisto n (loopSamples sampleR (bottom10Of (sortByOcorrencias df)) n
      (loopSamples sampleR (top10Of (sortByOcorrencias df)) n g).2).2).1,
    (hmais n g).2,
    (hmenos n (loopSamples sampleR (top10Of (sortByOcorrencias df)) n g).2).2,
    (hmisto n (loopSamples sampleR (bottom10Of (sortByOcorrencias df)) n
      (loopSamples sampleR (top10Of (sortByOcorrencias df)) n g).2).2).2⟩

/-- A deterministic behaviour allowed by the `random.sample` contract: take
the first `k` pool elements. -/
def takeSample (pool : List String) (k : Nat) (g : Unit) : List String × Unit :=
  (pool.take k, g)

/-- A deterministic behaviour allowed by `random.shuffle`: the identity
permutation. -/
def idShuffle (l : List String) (g : Unit) : List String × Unit := (l, g)

theorem takeSample_spec : SampleSpec takeSample := by
  intro pool k g hk
  refine ⟨?_, ?_, ?_⟩
  · show (pool.take k).length = k
    rw [List.length_take]
    omega
  · exact fun hnd => hnd.sublist (List.take_sublist _ _)
  · exact fun x hx => List.take_subset _ _ hx

theorem idShuffle_spec : ∀ (l : List String) (g : Unit), ((idShuffle l g).1).Perm l :=
  fun l _ => List.Perm.refl l

/-- A ten-row frequency table (numbers 01..10, all counts 0). -/
def tableDez : List RowDezena := (List.range' 1 10).map (fun i => (zfill (toString i) 2, 0))

/-- C6 counterexample: with the ten-row table and two requested suggestions
per category, a sampler allowed by `random.sample` makes the high-frequency
category return the same combination twice (so not 2 distinct combinations),
and each mixed key repeats numbers (the two strata coincide here), so the
claim as stated fails. -/
theorem sugerir_distintos_contraexemplo :
    ((sugerirJogos takeSample idShuffle tableDez 2 ()).1.lookup catMais =
      some ["01-02-03-04-05-06", "01-02-03-04-05-06"]) ∧
      ¬ (["01-02-03-04-05-06", "01-02-03-04-05-06"] : List String).Nodup ∧
      ((sugerirJogos takeSample idShuffle tableDez 2 ()).1.lookup catMisto =
        some ["01-01-02-02-03-03", "01-01-02-02-03-03"]) :=
  ⟨by decide, by decide, by decide⟩

/-- C6 witness: the amended category theorem evaluated at the ten-row table,
two suggestions, and the take-first sampler. -/
theorem sugerir_jogos_categorias_witness :
    ∃ jm jn jx : List String,
      (sugerirJogos takeSample idShuffle tableDez 2 ()).1 =
        [(catMais, jm), (catMenos, jn), (catMisto, jx)] ∧
      jm.length = 2 ∧ jn.length = 2 ∧ jx.length = 2 ∧
      (∀ j ∈ jm, ∃ s : List String, s.length = 6 ∧ s.Nodup ∧
        (∀ x ∈ s, x ∈ top10Of (sortByOcorrencias tableDez)) ∧
        j = normalize_game (s.map .strV)) ∧
      (∀ j ∈ jn, ∃ s : List String, s.length = 6 ∧ s.Nodup ∧
        (∀ x ∈ s, x ∈ bottom10Of (sortByOcorrencias tableDez)) ∧
        j = normalize_game (s.map .strV)) ∧
      (∀ j ∈ jx, ∃ t b : List String,
        t.length = 3 ∧ t.Nodup ∧ (∀ x ∈ t, x ∈ top10Of (sortByOcorrencias tableDez)) ∧
        b.length = 3 ∧ b.Nodup ∧ (∀ x ∈ b, x ∈ bottom10Of (sortByOcorrencias tableDez)) ∧
        j = normalize_game ((t ++ b).map .strV)) :=
  sugerir_jogos_categorias takeSample idShuffle takeSample_spec idShuffle_spec
    tableDez 2 () (by decide) (by decide)

/-- C7: with fewer than 6 distinct represented numbers the generator returns
the empty dict, so every category lookup signals "no suggestions" and no
undersized combination is ever produced. -/
theorem sugerir_insuficiente {G : Type}
    (sampleR : List String → Nat → G → List String × G)
    (shuffleR : List String → G → List String × G)
    (df : List RowDezena) (n : Nat) (g : G)
    (_hnodup : (df.map Prod.fst).Nodup) (hlt : df.length < 6) :
    (sugerirJogos sampleR shuffleR df n g).1 = [] ∧
      ∀ cat : String, ((sugerirJogos sampleR shuffleR df n g).1.lookup cat) = none := by
  have h1 : (sugerirJogos sampleR shuffleR df n g).1 = [] := by
    by_cases h : df = []
    · simp [sugerirJogos, h]
    · have hlen : (sortByOcorrencias df).length = df.length :=
        List.length_insertionSort _ _
      have hlt10 : (sortByOcorrencias df).length < 10 := by omega
      have hlt6 : ((sortByOcorrencias df).map Prod.fst).length < 6 := by
        rw [List.length_map]
        omega
      simp only [sugerirJogos, if_neg h, if_pos hlt10, if_pos hlt6]
  refine ⟨h1, fun cat => ?_⟩
  rw [h1]
  rfl

/-- A three-row frequency table. -/
def tableTres : List RowDezena := [("01", 3), ("02", 2), ("03", 1)]

/-- C7 witness: the empty-dict fallback on a three-row table. -/
theorem sugerir_insuficiente_witness :
    (sugerirJogos takeSample idShuffle tableTres 5 ()).1 = [] ∧
      ((sugerirJogos takeSample idShuffle tableTres 5 ()).1.lookup catMais) = none :=
  ⟨(sugerir_insuficiente takeSample idShuffle tableTres 5 () (by decide) (by decide)).1,
   (sugerir_insuficiente takeSample idShuffle tableTres 5 () (by decide) (by decide)).2 catMais⟩
